import Mathlib

/-!
# shaman `cache` package: the boltdb backend and the storage facade

A shallow embedding of `cache/boltdb.go` and `cache/cache.go`.

* Go strings and byte slices are byte lists (`GoString`).
* A Go `error` result is an `Option Error` (`none` is `nil`); a pointer result
  that may be `nil` is an `Option`.
* Package state (`storage`) and the database behind a `boltDb` client are passed
  explicitly: a mutating method returns the new state next to its result.
* What the package imports but does not define (the gob codec, `url.Parse`,
  `bolt.Open`, `Validate`, `SanitizeDomain`, the key prefix, and the three other
  backends) is a parameter, collected in `Deps` and `Backends`.
* The bbolt bucket is modelled by its documented contract on a key-ordered
  list of key/value pairs: `Put` refuses a blank key, a key longer than
  `MaxKeySize` and a value longer than `MaxValueSize`. A transaction that
  reaches its commit commits.
* Logging (`config.Log`) has no effect on any result and is left out.
-/

namespace cache

/-! ## Data model -/

/-- A Go `string` / `[]byte`: a finite sequence of bytes. -/
abbrev GoString := List (Fin 256)

/-- The bytes of an ASCII string literal. -/
def ascii (s : String) : GoString := s.toList.map (fun c => Fin.ofNat c.toNat)

/-- Error values that reach the callers of this package. -/
inductive Error where
  /-- The package variable of cache.go:15, `errors.New("No Record Found")`. -/
  | errNoRecordError
  /-- Raised by bbolt when a key is blank. -/
  | ErrKeyRequired
  /-- Raised by bbolt when a key is longer than `MaxKeySize`. -/
  | ErrKeyTooLarge
  /-- Raised by bbolt when a value is longer than `MaxValueSize`. -/
  | ErrValueTooLarge
  /-- Raised by bbolt when the bucket to delete does not exist. -/
  | ErrBucketNotFound
  /-- Raised by bbolt when a bucket operation meets a plain value (or the converse). -/
  | ErrIncompatibleValue
  /-- An error of `encoding/gob`. -/
  | gob (code : Nat)
  /-- An error of another collaborator (`url.Parse`, `bolt.Open`, another backend). -/
  | external (code : Nat)
  /-- A nil pointer dereference: a run-time panic, reported in the error position. -/
  | nilDereference
  /-- The wrapping `fmt.Errorf("Failed to save records - %v", err)` of boltdb.go:102. -/
  | failedToSave (inner : Error)
  /-- The wrapping `fmt.Errorf("Failed to parse 'l2-connect' - %v", err)` of cache.go:33. -/
  | failedToParse (inner : Error)
  deriving DecidableEq, Repr

/-- Modelled from the spec: `shaman.Resource` is declared in `core/common`, which is
not among the source files. Spec, section 3: "a domain name (string, the primary key)
plus arbitrary record payload fields owned by the external record model"; the payload
is kept as one opaque blob. -/
structure Resource where
  Domain : GoString
  Payload : GoString
  deriving DecidableEq, Repr

/-- The interface of `encoding/gob` used by the backend: `Encode` into a fresh buffer
and `Decode` from a reader over a stored value. -/
structure Codec where
  encode : Resource → Except Error GoString
  decode : GoString → Except Error Resource

/-- The result of `url.Parse`, with the two fields the package reads. -/
structure URL where
  Scheme : GoString
  Path : GoString
  deriving DecidableEq, Repr

/-! ## The bbolt bucket -/

/-- A bucket holding plain key/value pairs, in key order. No operation of this
backend creates a nested bucket, so none is represented. -/
abbrev Bucket := List (GoString × GoString)

/-- The bbolt constant `MaxKeySize`. -/
def MaxKeySize : Nat := 32768

/-- The bbolt constant `MaxValueSize`, `(1 << 31) - 2`. -/
def MaxValueSize : Nat := 2 ^ 31 - 2

/-- The order of `bytes.Compare`: lexicographic on bytes. -/
def bytesLt : GoString → GoString → Bool
  | [], [] => false
  | [], _ :: _ => true
  | _ :: _, [] => false
  | a :: as, b :: bs => if a < b then true else if b < a then false else bytesLt as bs

/-- The value stored under `key`, the result of `Bucket.Get`: `none` is Go's `nil`. -/
def Bucket.Get : Bucket → GoString → Option GoString
  | [], _ => none
  | (k, v) :: rest, key => if k = key then some v else Bucket.Get rest key

/-- Write `key` into the ordered list, overwriting the value of an existing key. -/
def Bucket.insert : Bucket → GoString → GoString → Bucket
  | [], key, value => [(key, value)]
  | (k, v) :: rest, key, value =>
    if key = k then (key, value) :: rest
    else if bytesLt key k then (key, value) :: (k, v) :: rest
    else (k, v) :: Bucket.insert rest key value

/-- Remove `key` from the list. -/
def Bucket.erase : Bucket → GoString → Bucket
  | [], _ => []
  | (k, v) :: rest, key =>
    if k = key then Bucket.erase rest key else (k, v) :: Bucket.erase rest key

/-- The method `Bucket.Put` inside a writable transaction: "Returns an error if ... the
key is blank, if the key is too large, or if the value is too large." -/
def Bucket.Put (b : Bucket) (key value : GoString) : Except Error Bucket :=
  if key.length = 0 then .error .ErrKeyRequired
  else if key.length > MaxKeySize then .error .ErrKeyTooLarge
  else if value.length > MaxValueSize then .error .ErrValueTooLarge
  else .ok (b.insert key value)

/-- The method `Bucket.Delete` inside a writable transaction: "If the key does not
exist then nothing is done and a nil error is returned." -/
def Bucket.Delete (b : Bucket) (key : GoString) : Except Error Bucket :=
  .ok (b.erase key)

/-- The method `Bucket.DeleteBucket`, which deletes the bucket nested in `b` under
`key`: "Returns an error if the bucket does not exist, or if the key represents a
non-bucket value." -/
def Bucket.DeleteBucket (b : Bucket) (key : GoString) : Except Error Bucket :=
  match b.Get key with
  | none => .error .ErrBucketNotFound
  | some _ => .error .ErrIncompatibleValue

/-- The method `Bucket.ForEach`: calls `fn` on every pair in key order, with `s` for
what `fn` captures; "If the provided function returns an error then the iteration is
stopped and the error is returned to the caller." -/
def Bucket.ForEach {σ : Type} :
    Bucket → (GoString → GoString → σ → σ × Option Error) → σ → σ × Option Error
  | [], _, s => (s, none)
  | (k, v) :: rest, fn, s =>
    match fn k v s with
    | (s1, some e) => (s1, some e)
    | (s1, none) => Bucket.ForEach rest fn s1

/-- The keys of a bucket are strictly increasing: the well-formed buckets. -/
def Bucket.Ordered (b : Bucket) : Prop :=
  b.Pairwise (fun x y => bytesLt x.1 y.1 = true)

/-! ## The boltdb backend (`boltdb.go`) -/

/-- Name of the bucket to use within boltdb (boltdb.go:17). -/
def dnsbucket : GoString := ascii "dns"

/-- What the two files take from outside: configuration, libraries and collaborators. -/
structure Deps where
  /-- The configuration variable `config.L2Connect`. -/
  L2Connect : GoString
  /-- The function `url.Parse`. -/
  parse : GoString → Except Error URL
  /-- The call `bolt.Open(path, 0600, nil)`: the records of the `dns` bucket of the
  file at `path` (`none` when the file has no such bucket yet), or the failure. -/
  boltOpen : GoString → Except Error (Option Bucket)
  /-- The codec `encoding/gob`. -/
  gob : Codec
  /-- The constant that `addPrefix` puts in front of a domain. -/
  keyTag : GoString
  /-- The method `Resource.Validate`, which rewrites the resource in place. -/
  Validate : Resource → Resource
  /-- The function `shaman.SanitizeDomain`, which rewrites the string in place. -/
  SanitizeDomain : GoString → GoString

/-- Modelled from the spec: `addPrefix` is defined in a source file of the package
that is not among the source files. Spec, section 4.2: "Key derivation: a fixed
textual prefix concatenated with the (already externally-normalized) domain string,
encoded as raw bytes." -/
def addPrefix (env : Deps) (domain : GoString) : GoString :=
  env.keyTag ++ domain

/-- A `boltDb` client after `initialize`: `db` is the `dns` bucket of the open
database, which `initialize` has created if it was missing. -/
structure boltDb where
  db : Bucket
  deriving DecidableEq, Repr

/-- The method `db.Update`: run `fn` in a read-write transaction; commit when it returns
`nil`, roll back and return its error otherwise. -/
def boltDb.Update (client : boltDb) (fn : Bucket → Except Error Bucket) :
    Option Error × boltDb :=
  match fn client.db with
  | .ok b => (none, { db := b })
  | .error e => (some e, client)

/-- The method `db.View`: run `fn` in a read-only transaction and return its error;
`s` holds the variables that `fn` captures. -/
def boltDb.View {σ : Type} (client : boltDb) (fn : Bucket → σ → σ × Option Error) (s : σ) :
    σ × Option Error :=
  fn client.db s

/-- The zero value of `shaman.Resource`. -/
def Resource.zero : Resource := { Domain := [], Payload := [] }

/-- boltdb.go:24-45. The error of `url.Parse` is overwritten, so a URI that does not
parse leaves `u` nil and `u.Path` panics. -/
def boltDb.initialize (env : Deps) : Except Error boltDb :=
  match env.parse env.L2Connect with
  | .error _ => .error .nilDereference
  | .ok u =>
    match env.boltOpen u.Path with
    | .error e => .error e
    | .ok existing =>
      -- tx.CreateBucketIfNotExists([]byte(dnsbucket))
      .ok { db := existing.getD [] }

/-- boltdb.go:68-81. -/
def boltDb.updateRecord (env : Deps) (client : boltDb) (domain : GoString)
    (resource : Resource) : Option Error × boltDb :=
  match env.gob.encode resource with
  | .error e => (some e, client)
  | .ok buf => client.Update (fun b => b.Put (addPrefix env domain) buf)

/-- boltdb.go:47-49. -/
def boltDb.addRecord (env : Deps) (client : boltDb) (resource : Resource) :
    Option Error × boltDb :=
  client.updateRecord env resource.Domain resource

/-- boltdb.go:51-66. -/
def boltDb.getRecord (env : Deps) (client : boltDb) (domain : GoString) :
    Option Resource × Option Error :=
  let r := client.View (fun b (result : Resource) =>
    match b.Get (addPrefix env domain) with
    | none => (result, some Error.errNoRecordError)
    | some kvPair =>
      match env.gob.decode kvPair with
      | .ok decoded => (decoded, none)
      | .error e => (result, some e)) Resource.zero
  match r.2 with
  | some e => (none, some e)
  | none => (some r.1, none)

/-- boltdb.go:83-89. -/
def boltDb.deleteRecord (env : Deps) (client : boltDb) (domain : GoString) :
    Option Error × boltDb :=
  client.Update (fun b => b.Delete (addPrefix env domain))

/-- The loop of boltdb.go:99-104. -/
def boltDb.addAll (env : Deps) : boltDb → List Resource → Option Error × boltDb
  | client, [] => (none, client)
  | client, r :: rest =>
    match client.addRecord env r with
    | (some e, c1) => (some (.failedToSave e), c1)
    | (none, c1) => boltDb.addAll env c1 rest

/-- boltdb.go:91-106. -/
def boltDb.resetRecords (env : Deps) (client : boltDb) (resources : List Resource) :
    Option Error × boltDb :=
  match client.Update (fun b => b.DeleteBucket dnsbucket) with
  | (some e, c1) => (some e, c1)
  | (none, c1) => boltDb.addAll env c1 resources

/-- boltdb.go:108-127. The result of `b.ForEach` is dropped and the transaction
function returns `nil`. -/
def boltDb.listRecords (env : Deps) (client : boltDb) :
    Option (List Resource) × Option Error :=
  let r := client.View (fun b (result : List Resource) =>
    let it := b.ForEach (fun _k v (acc : List Resource) =>
      match env.gob.decode v with
      | .error e => (acc, some e)
      | .ok resource => (acc ++ [resource], none)) result
    (it.1, none)) []
  match r.2 with
  | some e => (none, some e)
  | none => (some r.1, none)

/-! ## The facade (`cache.go`) -/

/-- The cacher interface (cache.go:19-27), as the methods of a backend whose state has
type `S`. Every method returns the state it leaves behind. -/
structure cacher (S : Type) where
  /-- The method `initialize`, called on the zero value of the backend. -/
  init : Deps → Except Error S
  addRecord : S → Resource → Option Error × S
  getRecord : S → GoString → (Option Resource × Option Error) × S
  updateRecord : S → GoString → Resource → Option Error × S
  deleteRecord : S → GoString → Option Error × S
  resetRecords : S → List Resource → Option Error × S
  listRecords : S → (Option (List Resource) × Option Error) × S

/-- The three backends of the package that are not among the source files. -/
structure Backends (A B C : Type) where
  scribbleDb : cacher A
  postgresDb : cacher B
  consulDb : cacher C

/-- The concrete type whose zero value the switch of `Initialize` assigns to `storage`. -/
inductive Kind where
  | scribbleDb
  | postgresDb
  | consulDb
  | boltDb
  deriving DecidableEq, Repr

/-- A non-nil value of the package variable `storage`: an initialized backend. -/
inductive Storage (A B C : Type) where
  | scribbleDb (s : A)
  | postgresDb (s : B)
  | consulDb (s : C)
  | boltDb (client : cache.boltDb)

section facade

variable {A B C : Type}

/-- The concrete type behind a `storage` value. -/
def Storage.kind : Storage A B C → Kind
  | .scribbleDb _ => .scribbleDb
  | .postgresDb _ => .postgresDb
  | .consulDb _ => .consulDb
  | .boltDb _ => .boltDb

/-- The switch on `u.Scheme` of cache.go:36-58; `none` is `storage = nil`. -/
def selectBackend (scheme : GoString) : Option Kind :=
  if scheme = ascii "scribble" then some .scribbleDb
  else if scheme = ascii "postgres" then some .postgresDb
  else if scheme = ascii "postgresql" then some .postgresDb
  else if scheme = ascii "consul" then some .consulDb
  else if scheme = ascii "boltdb" then some .boltDb
  else if scheme = ascii "none" then none
  else some .scribbleDb

/-- The call `storage.initialize()` on the zero value of the selected type. -/
def Kind.initialize (env : Deps) (bk : Backends A B C) : Kind → Except Error (Storage A B C)
  | .scribbleDb => (bk.scribbleDb.init env).map Storage.scribbleDb
  | .postgresDb => (bk.postgresDb.init env).map Storage.postgresDb
  | .consulDb => (bk.consulDb.init env).map Storage.consulDb
  | .boltDb => ( cache.boltDb.initialize env).map Storage.boltDb

/-- cache.go:30-70. Returns the error and the new value of `storage`. -/
def Initialize (env : Deps) (bk : Backends A B C) (storage : Option (Storage A B C)) :
    Option Error × Option (Storage A B C) :=
  match env.parse env.L2Connect with
  | .error e => (some (.failedToParse e), storage)
  | .ok u =>
    match selectBackend u.Scheme with
    | none => (none, none)
    | some k =>
      match k.initialize env bk with
      | .error _ => (none, none)
      | .ok s => (none, some s)

/-- Interface dispatch of `storage.addRecord`. -/
def Storage.addRecord (env : Deps) (bk : Backends A B C) :
    Storage A B C → Resource → Option Error × Storage A B C
  | .scribbleDb s, r => ((bk.scribbleDb.addRecord s r).1, .scribbleDb (bk.scribbleDb.addRecord s r).2)
  | .postgresDb s, r => ((bk.postgresDb.addRecord s r).1, .postgresDb (bk.postgresDb.addRecord s r).2)
  | .consulDb s, r => ((bk.consulDb.addRecord s r).1, .consulDb (bk.consulDb.addRecord s r).2)
  | .boltDb c, r => ((c.addRecord env r).1, .boltDb (c.addRecord env r).2)

/-- Interface dispatch of `storage.getRecord`. -/
def Storage.getRecord (env : Deps) (bk : Backends A B C) :
    Storage A B C → GoString → (Option Resource × Option Error) × Storage A B C
  | .scribbleDb s, d => ((bk.scribbleDb.getRecord s d).1, .scribbleDb (bk.scribbleDb.getRecord s d).2)
  | .postgresDb s, d => ((bk.postgresDb.getRecord s d).1, .postgresDb (bk.postgresDb.getRecord s d).2)
  | .consulDb s, d => ((bk.consulDb.getRecord s d).1, .consulDb (bk.consulDb.getRecord s d).2)
  | .boltDb c, d => (c.getRecord env d, .boltDb c)

/-- Interface dispatch of `storage.updateRecord`. -/
def Storage.updateRecord (env : Deps) (bk : Backends A B C) :
    Storage A B C → GoString → Resource → Option Error × Storage A B C
  | .scribbleDb s, d, r =>
    ((bk.scribbleDb.updateRecord s d r).1, .scribbleDb (bk.scribbleDb.updateRecord s d r).2)
  | .postgresDb s, d, r =>
    ((bk.postgresDb.updateRecord s d r).1, .postgresDb (bk.postgresDb.updateRecord s d r).2)
  | .consulDb s, d, r =>
    ((bk.consulDb.updateRecord s d r).1, .consulDb (bk.consulDb.updateRecord s d r).2)
  | .boltDb c, d, r => ((c.updateRecord env d r).1, .boltDb (c.updateRecord env d r).2)

/-- Interface dispatch of `storage.deleteRecord`. -/
def Storage.deleteRecord (env : Deps) (bk : Backends A B C) :
    Storage A B C → GoString → Option Error × Storage A B C
  | .scribbleDb s, d => ((bk.scribbleDb.deleteRecord s d).1, .scribbleDb (bk.scribbleDb.deleteRecord s d).2)
  | .postgresDb s, d => ((bk.postgresDb.deleteRecord s d).1, .postgresDb (bk.postgresDb.deleteRecord s d).2)
  | .consulDb s, d => ((bk.consulDb.deleteRecord s d).1, .consulDb (bk.consulDb.deleteRecord s d).2)
  | .boltDb c, d => ((c.deleteRecord env d).1, .boltDb (c.deleteRecord env d).2)

/-- Interface dispatch of `storage.resetRecords`. -/
def Storage.resetRecords (env : Deps) (bk : Backends A B C) :
    Storage A B C → List Resource → Option Error × Storage A B C
  | .scribbleDb s, rs => ((bk.scribbleDb.resetRecords s rs).1, .scribbleDb (bk.scribbleDb.resetRecords s rs).2)
  | .postgresDb s, rs => ((bk.postgresDb.resetRecords s rs).1, .postgresDb (bk.postgresDb.resetRecords s rs).2)
  | .consulDb s, rs => ((bk.consulDb.resetRecords s rs).1, .consulDb (bk.consulDb.resetRecords s rs).2)
  | .boltDb c, rs => ((c.resetRecords env rs).1, .boltDb (c.resetRecords env rs).2)

/-- Interface dispatch of `storage.listRecords`. -/
def Storage.listRecords (env : Deps) (bk : Backends A B C) :
    Storage A B C → (Option (List Resource) × Option Error) × Storage A B C
  | .scribbleDb s => ((bk.scribbleDb.listRecords s).1, .scribbleDb (bk.scribbleDb.listRecords s).2)
  | .postgresDb s => ((bk.postgresDb.listRecords s).1, .postgresDb (bk.postgresDb.listRecords s).2)
  | .consulDb s => ((bk.consulDb.listRecords s).1, .consulDb (bk.consulDb.listRecords s).2)
  | .boltDb c => (c.listRecords env, .boltDb c)

/-- The outcome of a facade call that takes a resource by pointer. -/
structure AddResult (A B C : Type) where
  /-- The returned error. -/
  err : Option Error
  /-- What the caller's resource holds after the call. -/
  resource : Resource
  /-- The package variable `storage` after the call. -/
  storage : Option (Storage A B C)

/-- cache.go:73-79. -/
def AddRecord (env : Deps) (bk : Backends A B C) (storage : Option (Storage A B C))
    (resource : Resource) : AddResult A B C :=
  match storage with
  | none => { err := none, resource := resource, storage := none }
  | some s =>
    let resource := env.Validate resource
    let r := s.addRecord env bk resource
    { err := r.1, resource := resource, storage := some r.2 }

/-- cache.go:82-89. Returns the record, the error and `storage` after the call. -/
def GetRecord (env : Deps) (bk : Backends A B C) (storage : Option (Storage A B C))
    (domain : GoString) : (Option Resource × Option Error) × Option (Storage A B C) :=
  match storage with
  | none => ((none, none), none)
  | some s =>
    let domain := env.SanitizeDomain domain
    let r := s.getRecord env bk domain
    (r.1, some r.2)

/-- cache.go:92-99. -/
def UpdateRecord (env : Deps) (bk : Backends A B C) (storage : Option (Storage A B C))
    (domain : GoString) (resource : Resource) : AddResult A B C :=
  match storage with
  | none => { err := none, resource := resource, storage := none }
  | some s =>
    let domain := env.SanitizeDomain domain
    let resource := env.Validate resource
    let r := s.updateRecord env bk domain resource
    { err := r.1, resource := resource, storage := some r.2 }

/-- cache.go:102-108. -/
def DeleteRecord (env : Deps) (bk : Backends A B C) (storage : Option (Storage A B C))
    (domain : GoString) : Option Error × Option (Storage A B C) :=
  match storage with
  | none => (none, none)
  | some s =>
    let domain := env.SanitizeDomain domain
    let r := s.deleteRecord env bk domain
    (r.1, some r.2)

/-- The outcome of `ResetRecords`, which takes the slice by pointer. -/
structure ResetResult (A B C : Type) where
  /-- The returned error. -/
  err : Option Error
  /-- What the caller's slice holds after the call. -/
  resources : List Resource
  /-- The package variable `storage` after the call. -/
  storage : Option (Storage A B C)

/-- cache.go:111-120. -/
def ResetRecords (env : Deps) (bk : Backends A B C) (storage : Option (Storage A B C))
    (resources : List Resource) : ResetResult A B C :=
  match storage with
  | none => { err := none, resources := resources, storage := none }
  | some s =>
    let resources := resources.map env.Validate
    let r := s.resetRecords env bk resources
    { err := r.1, resources := resources, storage := some r.2 }

/-- cache.go:123-128. -/
def ListRecords (env : Deps) (bk : Backends A B C) (storage : Option (Storage A B C)) :
    (Option (List Resource) × Option Error) × Option (Storage A B C) :=
  match storage with
  | none => ((some [], none), none)
  | some s =>
    let r := s.listRecords env bk
    (r.1, some r.2)

/-- cache.go:131-133. -/
def Exists (storage : Option (Storage A B C)) : Bool :=
  storage.isSome

end facade

/-! ## Concrete collaborators, used to evaluate the code on examples -/

/-- A self-delimiting codec: every domain byte is preceded by the tag 1, the tag 0 ends
the domain, and the payload follows. -/
def sampleEncode : GoString → GoString → GoString
  | [], payload => 0 :: payload
  | d :: ds, payload => 1 :: d :: sampleEncode ds payload

/-- Decoder of `sampleEncode`; fails on an empty value and on an unknown tag. -/
def sampleDecode : GoString → Except Error Resource
  | [] => .error (.gob 0)
  | [t] => if t = 0 then .ok { Domain := [], Payload := [] } else .error (.gob 1)
  | t :: d :: rest =>
    if t = 0 then .ok { Domain := [], Payload := d :: rest }
    else if t = 1 then
      match sampleDecode rest with
      | .ok r => .ok { Domain := d :: r.Domain, Payload := r.Payload }
      | .error e => .error e
    else .error (.gob 1)

/-- The sample codec. -/
def sampleCodec : Codec :=
  { encode := fun r => .ok (sampleEncode r.Domain r.Payload)
    decode := sampleDecode }

/-- ASCII lower-casing of a domain. -/
def lowerDomain (d : GoString) : GoString :=
  d.map (fun b => if 65 ≤ b.val ∧ b.val ≤ 90 then b + 32 else b)

/-- Sample collaborators: the key prefix is `domains:`, domains are lower-cased, the
URI is its own path and names the scheme `boltdb`, and the file is new. -/
def sampleDeps : Deps :=
  { L2Connect := ascii "boltdb:///tmp/x.db"
    parse := fun s => .ok { Scheme := ascii "boltdb", Path := s.drop 9 }
    boltOpen := fun _ => .ok none
    gob := sampleCodec
    keyTag := ascii "domains:"
    Validate := fun r => { r with Domain := lowerDomain r.Domain }
    SanitizeDomain := lowerDomain }

/-- A backend outside the source files whose every call fails. -/
def failingCacher : cacher Unit :=
  { init := fun _ => .error (.external 1)
    addRecord := fun s _ => (some (.external 2), s)
    getRecord := fun s _ => ((none, some (.external 3)), s)
    updateRecord := fun s _ _ => (some (.external 4), s)
    deleteRecord := fun s _ => (some (.external 5), s)
    resetRecords := fun s _ => (some (.external 6), s)
    listRecords := fun s => ((none, some (.external 7)), s) }

/-- Sample instances of the three other backends. -/
def sampleBackends : Backends Unit Unit Unit :=
  { scribbleDb := failingCacher, postgresDb := failingCacher, consulDb := failingCacher }

/-- A resource with the spec's example domain. -/
def exampleResource : Resource :=
  { Domain := ascii "example.com", Payload := ascii "A 10.0.0.1" }

/-- A domain of 32769 bytes, each the letter `a`. -/
def longDomain : GoString := List.replicate 32769 97

/-- A resource whose domain is `longDomain`. -/
def longResource : Resource := { Domain := longDomain, Payload := ascii "A 10.0.0.1" }

/-- A second resource. -/
def otherResource : Resource := { Domain := ascii "b.org", Payload := ascii "A 10.0.0.2" }

/-- A store holding an older record of `example.com`. -/
def exampleStore : boltDb :=
  { db := [(ascii "domains:example.com", sampleEncode (ascii "example.com") (ascii "A 9.9.9.9"))] }

/-- A store of three keys whose middle value is a truncated encoding: the tag 1 and a
domain byte twice, and then nothing. -/
def corruptStore : boltDb :=
  { db := [(ascii "domains:a.com", sampleEncode (ascii "a.com") (ascii "A 10.0.0.1")),
           (ascii "domains:b.com", [1, 98, 1, 46]),
           (ascii "domains:c.com", sampleEncode (ascii "c.com") (ascii "A 10.0.0.3"))] }

/-- Sample collaborators whose database file cannot be opened. -/
def unwritableDeps : Deps :=
  { sampleDeps with boltOpen := fun _ => .error (.external 13) }

/-! ## Lemmas on the bucket -/

theorem bytesLt_trans :
    ∀ a b c : GoString, bytesLt a b = true → bytesLt b c = true → bytesLt a c = true
  | [], [], _ => by simp [bytesLt]
  | [], _ :: _, [] => by simp [bytesLt]
  | [], _ :: _, _ :: _ => by simp [bytesLt]
  | _ :: _, [], _ => by simp [bytesLt]
  | _ :: _, _ :: _, [] => by simp [bytesLt]
  | x :: xs, y :: ys, z :: zs => by
    have ih := bytesLt_trans xs ys zs
    simp only [bytesLt]
    intro h1 h2
    rcases lt_trichotomy x y with hxy | hxy | hxy
    · rcases lt_trichotomy y z with hyz | hyz | hyz
      · simp [lt_trans hxy hyz]
      · subst hyz; simp [hxy]
      · simp [hyz, lt_asymm hyz] at h2
    · subst hxy
      rcases lt_trichotomy x z with hyz | hyz | hyz
      · simp [hyz]
      · subst hyz
        simp only [lt_irrefl, if_false] at h1 h2 ⊢
        exact ih h1 h2
      · simp [hyz, lt_asymm hyz] at h2
    · simp [hxy, lt_asymm hxy] at h1

theorem bytesLt_total :
    ∀ a b : GoString, a ≠ b → bytesLt a b = false → bytesLt b a = true
  | [], [] => by simp
  | [], _ :: _ => by simp [bytesLt]
  | _ :: _, [] => by simp [bytesLt]
  | x :: xs, y :: ys => by
    have ih := bytesLt_total xs ys
    simp only [bytesLt]
    intro hne h
    rcases lt_trichotomy x y with hxy | hxy | hxy
    · simp [hxy] at h
    · subst hxy
      simp only [lt_irrefl, if_false] at h ⊢
      exact ih (fun e => hne (by rw [e])) h
    · simp [hxy]

theorem Bucket.mem_insert (b : Bucket) (key value : GoString) (x : GoString × GoString)
    (hx : x ∈ b.insert key value) : x = (key, value) ∨ x ∈ b := by
  induction b with
  | nil => simpa [Bucket.insert] using hx
  | cons kv rest ih =>
    obtain ⟨k, v⟩ := kv
    simp only [Bucket.insert] at hx
    split_ifs at hx with h1 h2
    · rcases List.mem_cons.1 hx with h | h
      · exact Or.inl h
      · exact Or.inr (List.mem_cons_of_mem _ h)
    · rcases List.mem_cons.1 hx with h | h
      · exact Or.inl h
      · exact Or.inr h
    · rcases List.mem_cons.1 hx with h | h
      · exact Or.inr (h ▸ List.mem_cons_self _ _)
      · rcases ih h with h1 | h1
        · exact Or.inl h1
        · exact Or.inr (List.mem_cons_of_mem _ h1)

/-- Writing a key keeps the bucket in key order. -/
theorem Bucket.Ordered_insert (b : Bucket) (key value : GoString) (h : b.Ordered) :
    (b.insert key value).Ordered := by
  induction b with
  | nil => simp [Bucket.insert, Bucket.Ordered]
  | cons kv rest ih =>
    obtain ⟨k, v⟩ := kv
    unfold Bucket.Ordered at h ih ⊢
    rw [List.pairwise_cons] at h
    simp only [Bucket.insert]
    split_ifs with h1 h2
    · subst h1
      exact List.pairwise_cons.2 ⟨h.1, h.2⟩
    · refine List.pairwise_cons.2 ⟨?_, List.pairwise_cons.2 h⟩
      intro x hx
      rcases List.mem_cons.1 hx with e | e
      · subst e; exact h2
      · exact bytesLt_trans _ _ _ h2 (h.1 x e)
    · refine List.pairwise_cons.2 ⟨?_, ih h.2⟩
      intro x hx
      rcases Bucket.mem_insert rest key value x hx with e | e
      · subst e
        exact bytesLt_total _ _ h1 (by simpa using h2)
      · exact h.1 x e

theorem Bucket.erase_eq_filter (b : Bucket) (key : GoString) :
    b.erase key = b.filter (fun kv => decide (kv.1 ≠ key)) := by
  induction b with
  | nil => rfl
  | cons kv rest ih =>
    obtain ⟨k, v⟩ := kv
    by_cases h : k = key <;> simp [Bucket.erase, h, ih]

/-- Deleting a key keeps the bucket in key order. -/
theorem Bucket.Ordered_erase (b : Bucket) (key : GoString) (h : b.Ordered) :
    (b.erase key).Ordered := by
  rw [Bucket.erase_eq_filter]
  exact List.Pairwise.filter _ h

theorem Bucket.Get_insert_self (b : Bucket) (key value : GoString) :
    (b.insert key value).Get key = some value := by
  induction b with
  | nil => simp [Bucket.insert, Bucket.Get]
  | cons kv rest ih =>
    obtain ⟨k, v⟩ := kv
    by_cases h1 : key = k
    · simp [Bucket.insert, Bucket.Get, h1]
    · by_cases h2 : bytesLt key k = true
      · simp [Bucket.insert, Bucket.Get, h1, h2]
      · have h3 : ¬ k = key := fun h => h1 h.symm
        simp [Bucket.insert, Bucket.Get, h1, h2, h3, ih]

theorem Bucket.Get_insert_of_ne (b : Bucket) (k1 k2 value : GoString) (hne : k1 ≠ k2) :
    (b.insert k1 value).Get k2 = b.Get k2 := by
  induction b with
  | nil => simp [Bucket.insert, Bucket.Get, hne]
  | cons kv rest ih =>
    obtain ⟨k, v⟩ := kv
    by_cases h1 : k1 = k
    · subst h1
      simp [Bucket.insert, Bucket.Get, hne]
    · by_cases h2 : bytesLt k1 k = true
      · simp [Bucket.insert, Bucket.Get, h1, h2, hne]
      · by_cases h3 : k = k2
        · subst h3
          simp [Bucket.insert, Bucket.Get, h1, h2]
        · simp [Bucket.insert, Bucket.Get, h1, h2, h3, ih]

theorem Bucket.Get_erase_self (b : Bucket) (key : GoString) :
    (b.erase key).Get key = none := by
  induction b with
  | nil => simp [Bucket.erase, Bucket.Get]
  | cons kv rest ih =>
    obtain ⟨k, v⟩ := kv
    by_cases h : k = key
    · simp [Bucket.erase, h, ih]
    · simp [Bucket.erase, Bucket.Get, h, ih]

theorem Bucket.Get_erase_of_ne (b : Bucket) (k1 k2 : GoString) (hne : k1 ≠ k2) :
    (b.erase k1).Get k2 = b.Get k2 := by
  induction b with
  | nil => simp [Bucket.erase]
  | cons kv rest ih =>
    obtain ⟨k, v⟩ := kv
    by_cases h : k = k1
    · subst h
      simp [Bucket.erase, Bucket.Get, hne, ih]
    · by_cases h3 : k = k2
      · subst h3
        simp [Bucket.erase, Bucket.Get, h]
      · simp [Bucket.erase, Bucket.Get, h, h3, ih]

theorem Bucket.erase_of_Get_eq_none (b : Bucket) (key : GoString) (h : b.Get key = none) :
    b.erase key = b := by
  induction b with
  | nil => simp [Bucket.erase]
  | cons kv rest ih =>
    obtain ⟨k, v⟩ := kv
    by_cases hk : k = key
    · simp [Bucket.Get, hk] at h
    · simp only [Bucket.Get, hk, if_false] at h
      simp [Bucket.erase, hk, ih h]

/-- Key derivation never maps two domains to one key. -/
theorem addPrefix_injective (env : Deps) : Function.Injective (addPrefix env) := by
  intro d1 d2 h
  exact List.append_cancel_left h

/-- The sample codec decodes what it encoded. -/
theorem sampleDecode_sampleEncode (d payload : GoString) :
    sampleDecode (sampleEncode d payload) = .ok { Domain := d, Payload := payload } := by
  induction d with
  | nil =>
    cases payload with
    | nil => simp [sampleEncode, sampleDecode]
    | cons x xs => simp [sampleEncode, sampleDecode]
  | cons b bs ih => simp [sampleEncode, sampleDecode, ih]

theorem sampleDeps_encode (R : Resource) :
    sampleDeps.gob.encode R = .ok (sampleEncode R.Domain R.Payload) := rfl

theorem sampleDeps_decode_encode (R : Resource) :
    sampleDeps.gob.decode (sampleEncode R.Domain R.Payload) = .ok R := by
  cases R
  exact sampleDecode_sampleEncode _ _

theorem longDomain_length : longDomain.length = 32769 := by
  unfold longDomain
  exact List.length_replicate _ _

/-! ## Lemmas on the backend -/

/-- A write whose key and value the engine accepts succeeds, and the record is read
back under the same domain. -/
theorem boltDb.getRecord_updateRecord (env : Deps) (client : boltDb) (d : GoString)
    (R : Resource) (buf : GoString)
    (henc : env.gob.encode R = .ok buf) (hdec : env.gob.decode buf = .ok R)
    (hkey : 0 < (addPrefix env d).length ∧ (addPrefix env d).length ≤ MaxKeySize)
    (hval : buf.length ≤ MaxValueSize) :
    (client.updateRecord env d R).1 = none ∧
      (client.updateRecord env d R).2.getRecord env d = (some R, none) := by
  have h0 : ¬ (addPrefix env d).length = 0 := by omega
  have h1 : ¬ (addPrefix env d).length > MaxKeySize := by omega
  have h2 : ¬ buf.length > MaxValueSize := by omega
  simp [boltDb.updateRecord, boltDb.Update, Bucket.Put, henc, h0, h1, h2, boltDb.getRecord,
    boltDb.View, Bucket.Get_insert_self, hdec]

/-- A write under a key longer than `MaxKeySize` is refused and changes nothing. -/
theorem boltDb.updateRecord_key_too_large (env : Deps) (client : boltDb) (d : GoString)
    (R : Resource) (buf : GoString) (henc : env.gob.encode R = .ok buf)
    (hkey : MaxKeySize < (addPrefix env d).length) :
    client.updateRecord env d R = (some .ErrKeyTooLarge, client) := by
  have h0 : ¬ (addPrefix env d).length = 0 := by omega
  simp [boltDb.updateRecord, boltDb.Update, Bucket.Put, henc, h0, hkey]

/-- The state after a write differs from the state before only under the written key. -/
theorem boltDb.updateRecord_db_Get_of_ne (env : Deps) (client : boltDb) (d : GoString)
    (R : Resource) (key : GoString) (hne : addPrefix env d ≠ key) :
    (client.updateRecord env d R).2.db.Get key = client.db.Get key := by
  unfold boltDb.updateRecord boltDb.Update Bucket.Put
  cases env.gob.encode R with
  | error e => rfl
  | ok buf =>
    dsimp only
    split_ifs <;> simp [Bucket.Get_insert_of_ne _ _ _ _ hne]

/-- A lookup depends on the state only through the value under the derived key. -/
theorem boltDb.getRecord_congr (env : Deps) (c1 c2 : boltDb) (d : GoString)
    (h : c1.db.Get (addPrefix env d) = c2.db.Get (addPrefix env d)) :
    c1.getRecord env d = c2.getRecord env d := by
  simp [boltDb.getRecord, boltDb.View, h]

/-- The bucket deletion of resetRecords is refused on every store, so resetRecords
returns an error and changes nothing, whatever the records it is given. -/
theorem boltDb.resetRecords_fails (env : Deps) (client : boltDb) (rs : List Resource) :
    ∃ e, client.resetRecords env rs = (some e, client) := by
  cases h : client.db.Get dnsbucket <;>
    simp [boltDb.resetRecords, boltDb.Update, Bucket.DeleteBucket, h]

/-- The error result of listRecords is nil on every store, and a list is returned. -/
theorem boltDb.listRecords_err_eq_none (env : Deps) (client : boltDb) :
    ∃ l, client.listRecords env = (some l, none) :=
  ⟨_, rfl⟩

/-- Every mutating method of the backend keeps the bucket in key order. -/
theorem boltDb.Ordered_preserved (env : Deps) (client : boltDb) (d : GoString) (R : Resource)
    (rs : List Resource) (h : client.db.Ordered) :
    (client.updateRecord env d R).2.db.Ordered ∧ (client.addRecord env R).2.db.Ordered ∧
      (client.deleteRecord env d).2.db.Ordered ∧ (client.resetRecords env rs).2.db.Ordered := by
  have hupd : ∀ d1, (client.updateRecord env d1 R).2.db.Ordered := by
    intro d1
    unfold boltDb.updateRecord boltDb.Update Bucket.Put
    cases env.gob.encode R with
    | error e => exact h
    | ok buf =>
      dsimp only
      split_ifs
      · exact h
      · exact h
      · exact h
      · exact Bucket.Ordered_insert _ _ _ h
  refine ⟨hupd d, hupd R.Domain, ?_, ?_⟩
  · exact Bucket.Ordered_erase _ _ h
  · obtain ⟨e, he⟩ := boltDb.resetRecords_fails env client rs
    rw [he]
    exact h

/-- The sample stores are in key order. -/
theorem sampleStores_Ordered : exampleStore.db.Ordered ∧ corruptStore.db.Ordered := by
  unfold Bucket.Ordered
  exact ⟨by decide, by decide⟩

theorem sampleDeps_long_key (d : GoString) (h : d.length = 32769) :
    MaxKeySize < (addPrefix sampleDeps d).length := by
  simp [addPrefix, sampleDeps, h, MaxKeySize]

/-! ## The boltdb backend: round trip, upsert, misses and frame -/

/-- C1, as amended: on every initialized store, for every resource R that the codec
encodes to a value it decodes back to R, whose derived key is not blank and at most
`MaxKeySize` bytes long and whose encoded value is at most `MaxValueSize` bytes long,
addRecord(R) succeeds and a following getRecord(R.Domain) succeeds and returns R. -/
theorem addRecord_getRecord_roundtrip (env : Deps) (client : boltDb) (R : Resource)
    (buf : GoString)
    (henc : env.gob.encode R = .ok buf) (hdec : env.gob.decode buf = .ok R)
    (hkey : 0 < (addPrefix env R.Domain).length ∧ (addPrefix env R.Domain).length ≤ MaxKeySize)
    (hval : buf.length ≤ MaxValueSize) :
    (client.addRecord env R).1 = none ∧
      (client.addRecord env R).2.getRecord env R.Domain = (some R, none) :=
  boltDb.getRecord_updateRecord env client R.Domain R buf henc hdec hkey hval

/-- The amended C1 at the record of `example.com`, written over an older record of the
same domain. -/
theorem addRecord_getRecord_roundtrip_witness :
    (exampleStore.addRecord sampleDeps exampleResource).1 = none ∧
      (exampleStore.addRecord sampleDeps exampleResource).2.getRecord sampleDeps
        exampleResource.Domain = (some exampleResource, none) :=
  addRecord_getRecord_roundtrip sampleDeps exampleStore exampleResource
    (sampleEncode exampleResource.Domain exampleResource.Payload) rfl
    (sampleDecode_sampleEncode _ _) (by decide) (by decide)

/-- C1 fails as stated: the codec round-trips `longResource`, yet addRecord returns
`ErrKeyTooLarge` on the empty store, which stays empty, and the following getRecord
finds no record. -/
theorem addRecord_rejects_long_domain :
    (∃ buf, sampleDeps.gob.encode longResource = .ok buf ∧
        sampleDeps.gob.decode buf = .ok longResource) ∧
      boltDb.addRecord sampleDeps { db := [] } longResource
        = (some Error.ErrKeyTooLarge, { db := [] }) ∧
      boltDb.getRecord sampleDeps
          (boltDb.addRecord sampleDeps { db := [] } longResource).2 longResource.Domain
        = (none, some Error.errNoRecordError) := by
  have hadd : boltDb.addRecord sampleDeps { db := [] } longResource
      = (some Error.ErrKeyTooLarge, { db := [] }) :=
    boltDb.updateRecord_key_too_large sampleDeps { db := [] } longResource.Domain longResource
      (sampleEncode longResource.Domain longResource.Payload) (sampleDeps_encode longResource)
      (sampleDeps_long_key _ longDomain_length)
  refine ⟨⟨sampleEncode longResource.Domain longResource.Payload,
    sampleDeps_encode longResource, sampleDeps_decode_encode longResource⟩, hadd, ?_⟩
  rw [hadd]
  simp [boltDb.getRecord, boltDb.View, Bucket.Get]

/-- C4, as amended: for every domain d whose derived key is not blank and at most
`MaxKeySize` bytes long, and every resource R that the codec encodes to a value of at
most `MaxValueSize` bytes which it decodes back to R, updateRecord(d, R) succeeds and
a following getRecord(d) returns exactly R, whatever the store held under d before. -/
theorem updateRecord_getRecord_upsert (env : Deps) (client : boltDb) (d : GoString)
    (R : Resource) (buf : GoString)
    (henc : env.gob.encode R = .ok buf) (hdec : env.gob.decode buf = .ok R)
    (hkey : 0 < (addPrefix env d).length ∧ (addPrefix env d).length ≤ MaxKeySize)
    (hval : buf.length ≤ MaxValueSize) :
    (client.updateRecord env d R).1 = none ∧
      (client.updateRecord env d R).2.getRecord env d = (some R, none) :=
  boltDb.getRecord_updateRecord env client d R buf henc hdec hkey hval

/-- The amended C4 twice: on a store that holds an older record under the domain, and
on the empty store, under a domain that is not the resource's own. -/
theorem updateRecord_getRecord_upsert_witness :
    ((exampleStore.updateRecord sampleDeps (ascii "example.com") exampleResource).1 = none ∧
      (exampleStore.updateRecord sampleDeps (ascii "example.com") exampleResource).2.getRecord
        sampleDeps (ascii "example.com") = (some exampleResource, none)) ∧
    ((boltDb.updateRecord sampleDeps { db := [] } (ascii "alias.org") exampleResource).1 = none ∧
      (boltDb.updateRecord sampleDeps { db := [] } (ascii "alias.org") exampleResource).2.getRecord
        sampleDeps (ascii "alias.org") = (some exampleResource, none)) :=
  ⟨updateRecord_getRecord_upsert sampleDeps exampleStore (ascii "example.com") exampleResource
      (sampleEncode exampleResource.Domain exampleResource.Payload) rfl
      (sampleDecode_sampleEncode _ _) (by decide) (by decide),
    updateRecord_getRecord_upsert sampleDeps { db := [] } (ascii "alias.org") exampleResource
      (sampleEncode exampleResource.Domain exampleResource.Payload) rfl
      (sampleDecode_sampleEncode _ _) (by decide) (by decide)⟩

/-- C4 fails as stated: updateRecord(longDomain, exampleResource) on the store of
`example.com` returns `ErrKeyTooLarge` and leaves the store as it was, so the following
getRecord(longDomain) returns the not-found error instead of the resource. -/
theorem updateRecord_rejects_long_domain :
    exampleStore.updateRecord sampleDeps longDomain exampleResource
        = (some Error.ErrKeyTooLarge, exampleStore) ∧
      (exampleStore.updateRecord sampleDeps longDomain exampleResource).2.getRecord
          sampleDeps longDomain
        = (none, some Error.errNoRecordError) := by
  have hupd : exampleStore.updateRecord sampleDeps longDomain exampleResource
      = (some Error.ErrKeyTooLarge, exampleStore) :=
    boltDb.updateRecord_key_too_large sampleDeps exampleStore longDomain exampleResource
      (sampleEncode exampleResource.Domain exampleResource.Payload)
      (sampleDeps_encode exampleResource) (sampleDeps_long_key _ longDomain_length)
  refine ⟨hupd, ?_⟩
  rw [hupd]
  have hne : ¬ ascii "domains:example.com" = addPrefix sampleDeps longDomain := by
    intro h
    have hlen := congrArg List.length h
    have hlong := sampleDeps_long_key _ longDomain_length
    rw [← hlen] at hlong
    simp [ascii, MaxKeySize] at hlong
  simp [boltDb.getRecord, boltDb.View, exampleStore, Bucket.Get, hne]

/-- C5: for every domain d with no value stored under its derived key, getRecord(d)
returns no record and the error `errNoRecordError`, and deleteRecord(d) returns no
error and leaves the store exactly as it was. -/
theorem getRecord_deleteRecord_absent (env : Deps) (client : boltDb) (d : GoString)
    (habsent : client.db.Get (addPrefix env d) = none) :
    client.getRecord env d = (none, some Error.errNoRecordError) ∧
      client.deleteRecord env d = (none, client) := by
  constructor
  · simp [boltDb.getRecord, boltDb.View, habsent]
  · simp [boltDb.deleteRecord, boltDb.Update, Bucket.Delete,
      Bucket.erase_of_Get_eq_none _ _ habsent]

/-- C5 at the domain `b.org` on the store that holds `example.com` only. -/
theorem getRecord_deleteRecord_absent_witness :
    exampleStore.db.Get (addPrefix sampleDeps (ascii "b.org")) = none ∧
      exampleStore.getRecord sampleDeps (ascii "b.org") = (none, some Error.errNoRecordError) ∧
      exampleStore.deleteRecord sampleDeps (ascii "b.org") = (none, exampleStore) :=
  ⟨by decide, getRecord_deleteRecord_absent sampleDeps exampleStore (ascii "b.org") (by decide)⟩

/-- C10: key derivation is injective, and for every two different domains d1 and d2
and every resource R, neither updateRecord(d1, R) nor deleteRecord(d1) changes what
getRecord(d2) returns. -/
theorem distinct_domains_do_not_interfere (env : Deps) (client : boltDb) (d1 d2 : GoString)
    (R : Resource) (hne : d1 ≠ d2) :
    Function.Injective (addPrefix env) ∧
      addPrefix env d1 ≠ addPrefix env d2 ∧
      (client.updateRecord env d1 R).2.getRecord env d2 = client.getRecord env d2 ∧
      (client.deleteRecord env d1).2.getRecord env d2 = client.getRecord env d2 := by
  have hk : addPrefix env d1 ≠ addPrefix env d2 := fun h => hne (addPrefix_injective env h)
  refine ⟨addPrefix_injective env, hk, ?_, ?_⟩
  · exact boltDb.getRecord_congr env _ _ d2 (boltDb.updateRecord_db_Get_of_ne env client d1 R _ hk)
  · apply boltDb.getRecord_congr
    simp [boltDb.deleteRecord, boltDb.Update, Bucket.Delete, Bucket.Get_erase_of_ne _ _ _ hk]

/-- C10 at `b.org` and `example.com`: writing or deleting `b.org` leaves the record of
`example.com` readable and unchanged. -/
theorem distinct_domains_do_not_interfere_witness :
    ascii "b.org" ≠ ascii "example.com" ∧
      (exampleStore.updateRecord sampleDeps (ascii "b.org") exampleResource).2.getRecord
          sampleDeps (ascii "example.com")
        = exampleStore.getRecord sampleDeps (ascii "example.com") ∧
      (exampleStore.deleteRecord sampleDeps (ascii "b.org")).2.getRecord
          sampleDeps (ascii "example.com")
        = exampleStore.getRecord sampleDeps (ascii "example.com") ∧
      exampleStore.getRecord sampleDeps (ascii "example.com")
        = (some { Domain := ascii "example.com", Payload := ascii "A 9.9.9.9" }, none) :=
  ⟨by decide,
    (distinct_domains_do_not_interfere sampleDeps exampleStore (ascii "b.org")
      (ascii "example.com") exampleResource (by decide)).2.2.1,
    (distinct_domains_do_not_interfere sampleDeps exampleStore (ascii "b.org")
      (ascii "example.com") exampleResource (by decide)).2.2.2,
    by decide⟩

/-! ## The boltdb backend: bulk replace and enumeration -/

/-- C2, the code at a failing input: on the store holding an older record of
`example.com`, resetRecords of two records (one of them a newer record of
`example.com`) returns `ErrBucketNotFound` and leaves the store as it was, and
listRecords still returns the older record and neither of the two supplied. -/
theorem resetRecords_keeps_prior_records :
    exampleStore.resetRecords sampleDeps [exampleResource, otherResource]
        = (some Error.ErrBucketNotFound, exampleStore) ∧
      (exampleStore.resetRecords sampleDeps [exampleResource, otherResource]).2.listRecords
          sampleDeps
        = (some [{ Domain := ascii "example.com", Payload := ascii "A 9.9.9.9" }], none) := by
  decide

/-- C3, the code at a failing input: the second of three stored values does not
decode, and listRecords returns the list of the one record before it with a nil
error. -/
theorem listRecords_returns_partial_list :
    sampleDeps.gob.decode [1, 98, 1, 46] = .error (Error.gob 0) ∧
      corruptStore.listRecords sampleDeps
        = (some [{ Domain := ascii "a.com", Payload := ascii "A 10.0.0.1" }], none) :=
  ⟨rfl, by decide⟩

/-! ## The facade: selection, fail-open initialization and the storage-less mode -/

section facade

variable {A B C : Type}

/-- C6: for every connection URI that parses and whose scheme selects a backend, if
that backend's initialize fails then Initialize returns no error and leaves storage
unset, Exists reports false, and AddRecord, GetRecord, UpdateRecord, DeleteRecord,
ResetRecords and ListRecords then return no error (GetRecord no record, ListRecords
the empty list) and leave storage unset, so the same holds for every later call. -/
theorem Initialize_fail_open (env : Deps) (bk : Backends A B C)
    (storage : Option (Storage A B C)) (u : URL) (k : Kind) (e : Error)
    (R : Resource) (d : GoString) (rs : List Resource)
    (hparse : env.parse env.L2Connect = .ok u)
    (hselect : selectBackend u.Scheme = some k)
    (hfail : k.initialize env bk = .error e) :
    Initialize env bk storage = (none, none) ∧
      Exists (Initialize env bk storage).2 = false ∧
      ((AddRecord env bk (Initialize env bk storage).2 R).err = none ∧
        (AddRecord env bk (Initialize env bk storage).2 R).storage = none) ∧
      GetRecord env bk (Initialize env bk storage).2 d = ((none, none), none) ∧
      ((UpdateRecord env bk (Initialize env bk storage).2 d R).err = none ∧
        (UpdateRecord env bk (Initialize env bk storage).2 d R).storage = none) ∧
      DeleteRecord env bk (Initialize env bk storage).2 d = (none, none) ∧
      ((ResetRecords env bk (Initialize env bk storage).2 rs).err = none ∧
        (ResetRecords env bk (Initialize env bk storage).2 rs).storage = none) ∧
      ListRecords env bk (Initialize env bk storage).2 = ((some [], none), none) := by
  have h : Initialize env bk storage = (none, none) := by
    simp [Initialize, hparse, hselect, hfail]
  rw [h]
  simp [Exists, AddRecord, GetRecord, UpdateRecord, DeleteRecord, ResetRecords, ListRecords]

/-- C6 at the URI `boltdb:///tmp/x.db` when the file cannot be opened, starting from an
active backend. -/
theorem Initialize_fail_open_witness :
    Initialize unwritableDeps sampleBackends (some (Storage.boltDb exampleStore)) = (none, none) ∧
      Exists (Initialize unwritableDeps sampleBackends (some (Storage.boltDb exampleStore))).2
        = false ∧
      DeleteRecord unwritableDeps sampleBackends
          (Initialize unwritableDeps sampleBackends (some (Storage.boltDb exampleStore))).2
          (ascii "example.com")
        = (none, none) :=
  have h := Initialize_fail_open unwritableDeps sampleBackends
    (some (Storage.boltDb exampleStore))
    { Scheme := ascii "boltdb", Path := ascii "/tmp/x.db" } Kind.boltDb (Error.external 13)
    exampleResource (ascii "example.com") [] rfl (by decide) rfl
  ⟨h.1, h.2.1, h.2.2.2.2.2.1⟩

/-- C7: with no active backend AddRecord, UpdateRecord, DeleteRecord and ResetRecords
return nil, GetRecord returns no record and no error, ListRecords returns the empty
list and no error; storage stays unset and the caller's resource, slice and domain
come back as they were passed, whatever Validate and SanitizeDomain would do to them;
and Exists is true exactly when storage is set. -/
theorem no_backend_is_noop (env : Deps) (bk : Backends A B C)
    (R : Resource) (d : GoString) (rs : List Resource) :
    AddRecord env bk none R = { err := none, resource := R, storage := none } ∧
      GetRecord env bk none d = ((none, none), none) ∧
      UpdateRecord env bk none d R = { err := none, resource := R, storage := none } ∧
      DeleteRecord env bk none d = (none, none) ∧
      ResetRecords env bk none rs = { err := none, resources := rs, storage := none } ∧
      ListRecords env bk none = ((some [], none), none) ∧
      ∀ storage : Option (Storage A B C), Exists storage = true ↔ storage ≠ none := by
  refine ⟨rfl, rfl, rfl, rfl, rfl, rfl, ?_⟩
  intro storage
  cases storage <;> simp [Exists]

/-- C9: the switch selects boltdb for `boltdb`, the relational backend for `postgres`
and `postgresql`, consul for `consul`, scribble for `scribble`, nothing for `none`,
and scribble for every other scheme; when the URI parses, Initialize returns no error
and leaves in storage the selected backend as initialized (nothing when none is
selected or its initialize fails); Initialize returns an error exactly when the URI
does not parse. -/
theorem Initialize_selects_by_scheme (env : Deps) (bk : Backends A B C)
    (storage : Option (Storage A B C)) :
    selectBackend (ascii "boltdb") = some Kind.boltDb ∧
      selectBackend (ascii "postgres") = some Kind.postgresDb ∧
      selectBackend (ascii "postgresql") = some Kind.postgresDb ∧
      selectBackend (ascii "consul") = some Kind.consulDb ∧
      selectBackend (ascii "scribble") = some Kind.scribbleDb ∧
      selectBackend (ascii "none") = none ∧
      (∀ scheme, scheme ∉ [ascii "boltdb", ascii "postgres", ascii "postgresql", ascii "consul",
          ascii "scribble", ascii "none"] → selectBackend scheme = some Kind.scribbleDb) ∧
      (∀ u, env.parse env.L2Connect = .ok u →
        (Initialize env bk storage).1 = none ∧
        (∀ k, selectBackend u.Scheme = some k →
          (∀ s, k.initialize env bk = .ok s →
            (Initialize env bk storage).2 = some s ∧ s.kind = k) ∧
          (∀ e, k.initialize env bk = .error e → (Initialize env bk storage).2 = none)) ∧
        (selectBackend u.Scheme = none → (Initialize env bk storage).2 = none)) ∧
      ((Initialize env bk storage).1 ≠ none ↔ ∃ e, env.parse env.L2Connect = .error e) := by
  refine ⟨by decide, by decide, by decide, by decide, by decide, by decide, ?_, ?_, ?_⟩
  · intro scheme h
    simp only [List.mem_cons, List.mem_singleton, not_or, List.not_mem_nil, or_false] at h
    obtain ⟨h1, h2, h3, h4, h5, h6⟩ := h
    simp [selectBackend, h1, h2, h3, h4, h5, h6]
  · intro u hu
    refine ⟨?_, ?_, ?_⟩
    · simp only [Initialize, hu]
      cases selectBackend u.Scheme with
      | none => rfl
      | some k => dsimp only; cases k.initialize env bk <;> rfl
    · intro k hk
      refine ⟨?_, ?_⟩
      · intro s hs
        refine ⟨by simp [Initialize, hu, hk, hs], ?_⟩
        cases k <;> simp only [ Kind.initialize] at hs
        · cases h : bk.scribbleDb.init env <;> simp [h, Except.map] at hs
          subst hs; rfl
        · cases h : bk.postgresDb.init env <;> simp [h, Except.map] at hs
          subst hs; rfl
        · cases h : bk.consulDb.init env <;> simp [h, Except.map] at hs
          subst hs; rfl
        · cases h : cache.boltDb.initialize env <;> simp [h, Except.map] at hs
          subst hs; rfl
      · intro e he
        simp [Initialize, hu, hk, he]
    · intro hn
      simp [Initialize, hu, hn]
  · constructor
    · intro h
      cases hp : env.parse env.L2Connect with
      | error e => exact ⟨e, rfl⟩
      | ok u =>
        exfalso
        apply h
        simp only [Initialize, hp]
        cases selectBackend u.Scheme with
        | none => rfl
        | some k => dsimp only; cases k.initialize env bk <;> rfl
    · rintro ⟨e, he⟩
      simp [Initialize, he]

end facade

/-! ## The facade over the boltdb backend: keys are derived after normalization -/

section facade

variable {A B C : Type}

/-- C8, as amended: with a boltdb backend active, let V be R as Validate leaves it (what
the caller's resource holds after the call) and assume the codec encodes V to a value
of at most `MaxValueSize` bytes that it decodes back to V. For every d that sanitizes
to the domain of V, provided the key derived from that domain is not blank and at most
`MaxKeySize` bytes long, AddRecord(R) succeeds and a following GetRecord(d) returns V.
Likewise, for every d1 and d2 that sanitize to the same string, provided the key
derived from that string is not blank and at most `MaxKeySize` bytes long,
UpdateRecord(d1, R) succeeds and a following GetRecord(d2) returns V. -/
theorem facade_derives_key_after_normalization (env : Deps) (bk : Backends A B C)
    (client : boltDb) (R : Resource) (buf : GoString)
    (henc : env.gob.encode (env.Validate R) = .ok buf)
    (hdec : env.gob.decode buf = .ok (env.Validate R))
    (hval : buf.length ≤ MaxValueSize) :
    (∀ d : GoString,
      env.SanitizeDomain d = (env.Validate R).Domain →
      0 < (addPrefix env (env.Validate R).Domain).length →
      (addPrefix env (env.Validate R).Domain).length ≤ MaxKeySize →
      (AddRecord env bk (some (Storage.boltDb client)) R).err = none ∧
        (AddRecord env bk (some (Storage.boltDb client)) R).resource = env.Validate R ∧
        (GetRecord env bk (AddRecord env bk (some (Storage.boltDb client)) R).storage d).1
          = (some (env.Validate R), none)) ∧
    (∀ d1 d2 : GoString,
      env.SanitizeDomain d1 = env.SanitizeDomain d2 →
      0 < (addPrefix env (env.SanitizeDomain d1)).length →
      (addPrefix env (env.SanitizeDomain d1)).length ≤ MaxKeySize →
      (UpdateRecord env bk (some (Storage.boltDb client)) d1 R).err = none ∧
        (UpdateRecord env bk (some (Storage.boltDb client)) d1 R).resource = env.Validate R ∧
        (GetRecord env bk
            (UpdateRecord env bk (some (Storage.boltDb client)) d1 R).storage d2).1
          = (some (env.Validate R), none)) := by
  constructor
  · intro d hd hk0 hk1
    have hadd := boltDb.getRecord_updateRecord env client (env.Validate R).Domain
      (env.Validate R) buf henc hdec ⟨hk0, hk1⟩ hval
    refine ⟨hadd.1, rfl, ?_⟩
    simp only [AddRecord, GetRecord, Storage.addRecord, Storage.getRecord, hd]
    exact hadd.2
  · intro d1 d2 h12 hk0 hk1
    have hupd := boltDb.getRecord_updateRecord env client (env.SanitizeDomain d1)
      (env.Validate R) buf henc hdec ⟨hk0, hk1⟩ hval
    refine ⟨hupd.1, rfl, ?_⟩
    simp only [UpdateRecord, GetRecord, Storage.updateRecord, Storage.getRecord, ← h12]
    exact hupd.2

/-- The amended C8 on the spec's scenario: the record of `example.com` is added and
read back as `EXAMPLE.com`; and it is updated under `Alias.ORG`, a domain that is not
its own, and read back as `ALIAS.org`. -/
theorem facade_derives_key_after_normalization_witness :
    (sampleDeps.SanitizeDomain (ascii "EXAMPLE.com") = ascii "example.com" ∧
      sampleDeps.SanitizeDomain (ascii "Alias.ORG")
        = sampleDeps.SanitizeDomain (ascii "ALIAS.org")) ∧
    ((AddRecord sampleDeps sampleBackends (some (Storage.boltDb exampleStore))
        exampleResource).err = none ∧
      (AddRecord sampleDeps sampleBackends (some (Storage.boltDb exampleStore))
        exampleResource).resource = exampleResource ∧
      (GetRecord sampleDeps sampleBackends
        (AddRecord sampleDeps sampleBackends (some (Storage.boltDb exampleStore))
          exampleResource).storage (ascii "EXAMPLE.com")).1
        = (some exampleResource, none)) ∧
    ((UpdateRecord sampleDeps sampleBackends (some (Storage.boltDb exampleStore))
        (ascii "Alias.ORG") exampleResource).err = none ∧
      (UpdateRecord sampleDeps sampleBackends (some (Storage.boltDb exampleStore))
        (ascii "Alias.ORG") exampleResource).resource = exampleResource ∧
      (GetRecord sampleDeps sampleBackends
        (UpdateRecord sampleDeps sampleBackends (some (Storage.boltDb exampleStore))
          (ascii "Alias.ORG") exampleResource).storage (ascii "ALIAS.org")).1
        = (some exampleResource, none)) :=
  have h := facade_derives_key_after_normalization sampleDeps sampleBackends exampleStore
    exampleResource (sampleEncode exampleResource.Domain exampleResource.Payload) rfl
    (sampleDeps_decode_encode exampleResource) (by decide)
  ⟨⟨by decide, by decide⟩,
    h.1 (ascii "EXAMPLE.com") (by decide) (by decide) (by decide),
    h.2 (ascii "Alias.ORG") (ascii "ALIAS.org") (by decide) (by decide) (by decide)⟩

/-- C8 fails as stated: with the boltdb backend active on an empty store,
UpdateRecord(longDomain, R) returns `ErrKeyTooLarge`, and the following
GetRecord(longDomain), the same domain, returns the not-found error and no record. -/
theorem facade_rejects_long_domain :
    (UpdateRecord sampleDeps sampleBackends (some (Storage.boltDb { db := [] }))
        longDomain exampleResource).err = some Error.ErrKeyTooLarge ∧
      (GetRecord sampleDeps sampleBackends
        (UpdateRecord sampleDeps sampleBackends (some (Storage.boltDb { db := [] }))
          longDomain exampleResource).storage longDomain).1
        = (none, some Error.errNoRecordError) := by
  have hlen : (sampleDeps.SanitizeDomain longDomain).length = 32769 := by
    show (lowerDomain longDomain).length = 32769
    simp [lowerDomain, longDomain_length]
  have hupd := boltDb.updateRecord_key_too_large sampleDeps { db := [] }
    (sampleDeps.SanitizeDomain longDomain) (sampleDeps.Validate exampleResource)
    (sampleEncode (sampleDeps.Validate exampleResource).Domain
      (sampleDeps.Validate exampleResource).Payload)
    (sampleDeps_encode _) (sampleDeps_long_key _ hlen)
  simp only [UpdateRecord, GetRecord, Storage.updateRecord, Storage.getRecord, hupd]
  simp [boltDb.getRecord, boltDb.View, Bucket.Get]

end facade

end cache
